import Mathlib

/-!
Verification of the static feature extractor and prediction adapter of the
SustainableCodeReviewer application (streamlit_app.py).  The Python program is
shallowly embedded: the subset of the Python abstract syntax tree that the
program inspects becomes a mutual inductive family, ast.walk becomes a
breadth-first enumeration of nodes, the ast.NodeVisitor subclass
FeatureExtractor becomes an explicit state-passing traversal, and the
fallible pieces (file reading, parsing, the unbound-local failure in the
scan of imports, numeric coercion before prediction) become Option / sum-like
results.
-/

namespace SCR

/-- Subset of Python runtime values that can appear as entries of the
features dictionary handed to predict_for_features.  The extractor itself
only ever produces integers; strVal and noneVal model ill-typed entries. -/
inductive PyVal : Type where
| intVal (n : Int) : PyVal
| strVal (s : String) : PyVal
| noneVal : PyVal
deriving DecidableEq

/-- The numeric value of a non-empty all-digit character list, none
otherwise. -/
def digitsVal (l : List Char) : Option Nat :=
  if l.isEmpty then none
  else if l.all Char.isDigit then
    some (l.foldl (fun acc c => acc * 10 + (c.toNat - 48)) 0)
  else none

/-- Models pandas.to_numeric (value, errors = coerce) on the value shapes that
occur in this program: an integer passes through, a string parses when it is
an integer literal with an optional sign and otherwise coerces to NaN
(modelled as none), and None coerces to NaN. -/
def to_numeric : PyVal → Option Int
| .intVal n => some n
| .strVal s =>
    match s.data with
    | '-' :: rest => (digitsVal rest).map (fun n => -(n : Int))
    | '+' :: rest => (digitsVal rest).map (fun n => (n : Int))
    | l => (digitsVal l).map (fun n => (n : Int))
| .noneVal => none

mutual
/-- Python expressions, restricted to the node kinds the program inspects:
bare names, attribute accesses (constructor attrib, mirroring ast.Attribute
with its attr field), call expressions and opaque literals (ast.Name,
ast.Attribute, ast.Call, ast.Constant). -/
inductive PyExpr : Type where
| name (id : String) : PyExpr
| constant : PyExpr
| attrib (value : PyExpr) (attr : String) : PyExpr
| call (func : PyExpr) (args : PyExprList) : PyExpr
deriving DecidableEq

inductive PyExprList : Type where
| nil : PyExprList
| cons (head : PyExpr) (tail : PyExprList) : PyExprList
deriving DecidableEq

/-- Python statements, restricted to the node kinds the program inspects:
ast.FunctionDef, ast.ClassDef, ast.For, ast.While, ast.If, ast.Import,
ast.ImportFrom, plus expression statements, simple assignments and pass as
generic statement forms.  For an ast.Import the embedded list holds the
dotted names of the aliases; for an ast.ImportFrom the Option String is the
module attribute, which is absent (none) for a relative import such as
from . import x. -/
inductive PyStmt : Type where
| functionDef (name : String) (body : PyStmtList) : PyStmt
| classDef (name : String) (body : PyStmtList) : PyStmt
| forStmt (target : PyExpr) (iter : PyExpr) (body : PyStmtList) (orelse : PyStmtList) : PyStmt
| whileStmt (test : PyExpr) (body : PyStmtList) (orelse : PyStmtList) : PyStmt
| ifStmt (test : PyExpr) (body : PyStmtList) (orelse : PyStmtList) : PyStmt
| importStmt (names : List String) : PyStmt
| importFrom (module : Option String) (names : List String) : PyStmt
| exprStmt (value : PyExpr) : PyStmt
| assign (target : PyExpr) (value : PyExpr) : PyStmt
| pass : PyStmt
deriving DecidableEq

inductive PyStmtList : Type where
| nil : PyStmtList
| cons (head : PyStmt) (tail : PyStmtList) : PyStmtList
deriving DecidableEq
end

def PyStmtList.toList : PyStmtList → List PyStmt
| .nil => []
| .cons s ss => s :: ss.toList

def PyExprList.toList : PyExprList → List PyExpr
| .nil => []
| .cons e es => e :: es.toList

mutual
/-- Structural size of an expression, used only as a termination measure. -/
def sizeE : PyExpr → Nat
| .name _ => 1
| .constant => 1
| .attrib v _ => 1 + sizeE v
| .call f args => 1 + sizeE f + sizeEL args

def sizeEL : PyExprList → Nat
| .nil => 1
| .cons e es => 1 + sizeE e + sizeEL es

/-- Structural size of a statement, used only as a termination measure. -/
def sizeS : PyStmt → Nat
| .functionDef _ b => 1 + sizeSL b
| .classDef _ b => 1 + sizeSL b
| .forStmt t i b o => 1 + sizeE t + sizeE i + sizeSL b + sizeSL o
| .whileStmt c b o => 1 + sizeE c + sizeSL b + sizeSL o
| .ifStmt c b o => 1 + sizeE c + sizeSL b + sizeSL o
| .importStmt _ => 1
| .importFrom _ _ => 1
| .exprStmt e => 1 + sizeE e
| .assign t v => 1 + sizeE t + sizeE v
| .pass => 1

def sizeSL : PyStmtList → Nat
| .nil => 1
| .cons s ss => 1 + sizeS s + sizeSL ss
end

/-- A node of the syntax tree, as enumerated by ast.walk. -/
inductive PyNode : Type where
| stmt (s : PyStmt) : PyNode
| expr (e : PyExpr) : PyNode
deriving DecidableEq

/-- The child nodes of a node, in field order, as ast.iter_child_nodes
yields them for the embedded node kinds.  Strings and alias lists are not
tree nodes. -/
def pyChildren : PyNode → List PyNode
| .expr (.name _) => []
| .expr .constant => []
| .expr (.attrib v _) => [.expr v]
| .expr (.call f args) => .expr f :: args.toList.map .expr
| .stmt (.functionDef _ body) => body.toList.map .stmt
| .stmt (.classDef _ body) => body.toList.map .stmt
| .stmt (.forStmt t i body orelse) =>
    .expr t :: .expr i :: (body.toList.map .stmt ++ orelse.toList.map .stmt)
| .stmt (.whileStmt c body orelse) =>
    .expr c :: (body.toList.map .stmt ++ orelse.toList.map .stmt)
| .stmt (.ifStmt c body orelse) =>
    .expr c :: (body.toList.map .stmt ++ orelse.toList.map .stmt)
| .stmt (.importStmt _) => []
| .stmt (.importFrom _ _) => []
| .stmt (.exprStmt e) => [.expr e]
| .stmt (.assign t v) => [.expr t, .expr v]
| .stmt .pass => []

/-- Size of the underlying statement or expression, used as the termination
measure of the breadth-first walk. -/
def nodeWeight : PyNode → Nat
| .stmt s => sizeS s
| .expr e => sizeE e

def nodesWeight (l : List PyNode) : Nat := (l.map nodeWeight).sum

/-- Fuel-driven helper for the breadth-first enumeration of ast.walk; the
fuel only serves to make the recursion structural, and walkFrom always
supplies enough of it (the unfolding lemmas below recover the natural
recursive equations). -/
def walkFromAux : Nat → List PyNode → List PyNode
| _, [] => []
| 0, _ :: _ => []
| fuel + 1, n :: q => n :: walkFromAux fuel (q ++ pyChildren n)

/-- Breadth-first enumeration of all nodes reachable from a work list,
modelling the queue-based traversal of ast.walk. -/
def walkFrom (l : List PyNode) : List PyNode :=
  walkFromAux (nodesWeight l) l

/-- All nodes of a parsed module in the order produced by ast.walk applied to
the Module node: the Module node itself comes first but is of none of the
counted kinds, so the enumeration starts from the top-level statement list. -/
def walk (body : PyStmtList) : List PyNode :=
  walkFrom (body.toList.map PyNode.stmt)

/-- The library_weights dictionary of streamlit_app.py, transcribed entry by
entry in source order. -/
def library_weights : List (String × Nat) :=
  [("torch", 10), ("tensorflow", 10), ("jax", 9), ("keras", 9), ("transformers", 9),
   ("lightgbm", 8), ("xgboost", 8), ("catboost", 8), ("sklearn", 7), ("scikit-learn", 7),
   ("pandas", 6), ("numpy", 6), ("dask", 7), ("polars", 6), ("matplotlib", 4),
   ("seaborn", 4), ("plotly", 5), ("bokeh", 5), ("altair", 4), ("cv2", 6),
   ("PIL", 4), ("imageio", 3), ("scikit-image", 4), ("nltk", 5), ("spacy", 6),
   ("gensim", 5), ("requests", 2), ("httpx", 2), ("urllib", 1), ("aiohttp", 3),
   ("fastapi", 4), ("flask", 3), ("django", 5), ("openpyxl", 3), ("csv", 1),
   ("json", 1), ("sqlite3", 2), ("sqlalchemy", 3), ("h5py", 4), ("pickle", 2),
   ("os", 1), ("sys", 1), ("shutil", 1), ("glob", 1), ("pathlib", 1),
   ("math", 1), ("statistics", 1), ("scipy", 5), ("datetime", 1), ("time", 1),
   ("calendar", 1), ("re", 1), ("argparse", 1), ("typing", 1), ("logging", 1),
   ("threading", 2), ("multiprocessing", 3), ("concurrent", 3), ("subprocess", 3),
   ("random", 1), ("uuid", 1), ("hashlib", 1), ("base64", 1), ("decimal", 1),
   ("boto3", 6), ("google.cloud", 6), ("azure", 6), ("pyspark", 9), ("IPython", 2),
   ("jupyter", 2)]

/-- library_weights.get (lib, 2): the table weight of a name, with default 2
for names not in the table. -/
def weightOf (lib : String) : Nat :=
  (List.lookup lib library_weights).getD 2

/-- The file_io_funcs set of streamlit_app.py. -/
def file_io_funcs : List String :=
  ["open", "read", "write", "remove", "rename", "copy", "seek", "tell", "flush"]

/-- The state of the FeatureExtractor visitor: its max_loop_depth and
file_io_calls attributes.  The current_depth attribute is passed as an
explicit argument of the traversal, since each visit method restores it on
exit. -/
structure FeatureExtractor : Type where
  max_loop_depth : Nat
  file_io_calls : Nat
deriving DecidableEq

/-- The func_name computed by FeatureExtractor.visit_Call: the identifier of
a bare-name callee, the attr of an attribute callee, and None otherwise. -/
def callFuncName : PyExpr → Option String
| .name id => some id
| .attrib _ attr => some attr
| _ => none

/-- Whether visit_Call increments file_io_calls: func_name in file_io_funcs,
which is false when func_name is None. -/
def isFileIONameHit (f : PyExpr) : Bool :=
  match callFuncName f with
  | some nm => file_io_funcs.contains nm
  | none => false

mutual
/-- The FeatureExtractor traversal over an expression.  Only visit_Call is
overridden for expressions; every other expression kind takes the
generic_visit path, which visits the children in field order. -/
def visitE (depth : Nat) (st : FeatureExtractor) : PyExpr → FeatureExtractor
| .name _ => st
| .constant => st
| .attrib v _ => visitE depth st v
| .call f args =>
    let st1 := if isFileIONameHit f then
      { st with file_io_calls := st.file_io_calls + 1 } else st
    visitEL depth (visitE depth st1 f) args

def visitEL (depth : Nat) (st : FeatureExtractor) : PyExprList → FeatureExtractor
| .nil => st
| .cons e es => visitEL depth (visitE depth st e) es

/-- The FeatureExtractor traversal over a statement.  visit_For and
visit_While increment the depth, update max_loop_depth, visit the children
at the deeper level and restore the depth; everything else is
generic_visit. -/
def visitS (depth : Nat) (st : FeatureExtractor) : PyStmt → FeatureExtractor
| .functionDef _ body => visitSL depth st body
| .classDef _ body => visitSL depth st body
| .forStmt t i body orelse =>
    let st1 := { st with max_loop_depth := max st.max_loop_depth (depth + 1) }
    visitSL (depth + 1)
      (visitSL (depth + 1) (visitE (depth + 1) (visitE (depth + 1) st1 t) i) body) orelse
| .whileStmt c body orelse =>
    let st1 := { st with max_loop_depth := max st.max_loop_depth (depth + 1) }
    visitSL (depth + 1) (visitSL (depth + 1) (visitE (depth + 1) st1 c) body) orelse
| .ifStmt c body orelse =>
    visitSL depth (visitSL depth (visitE depth st c) body) orelse
| .importStmt _ => st
| .importFrom _ _ => st
| .exprStmt e => visitE depth st e
| .assign t v => visitE depth (visitE depth st t) v
| .pass => st

def visitSL (depth : Nat) (st : FeatureExtractor) : PyStmtList → FeatureExtractor
| .nil => st
| .cons s ss => visitSL depth (visitS depth st s) ss
end

/-- The state threaded through the import-scanning loop of
extract_features_and_code_from_file: the local variable lib (none while it
is still unbound), the set imported_libs, and the counter num_imports. -/
structure ImportScan : Type where
  lib : Option String
  imported_libs : Finset String
  num_imports : Nat

/-- name.split (".")[0]: the characters before the first dot. -/
def firstSegment (s : String) : String :=
  String.mk (s.data.takeWhile (fun c => c != '.'))

/-- The body of the inner loop over node.names of an ast.Import node: for
each alias, lib is bound to the first dotted segment, added to imported_libs
when non-empty, and num_imports is incremented. -/
def scanAliases (st : ImportScan) : List String → ImportScan
| [] => st
| nm :: rest =>
    let l := firstSegment nm
    scanAliases
      { lib := some l
        imported_libs := if l = "" then st.imported_libs else insert l st.imported_libs
        num_imports := st.num_imports + 1 } rest

/-- One iteration of the loop for node in ast.walk (tree) in
extract_features_and_code_from_file.  For an ast.ImportFrom node, the
statement if node.module: lib = node.module.split(".")[0] ends at the
semicolon, so the following if lib: imported_libs.add(lib) runs
unconditionally; when lib has never been bound this raises
UnboundLocalError, modelled as none. -/
def scanNode (st : ImportScan) : PyNode → Option ImportScan
| .stmt (.importStmt names) => some (scanAliases st names)
| .stmt (.importFrom module _) =>
    let st1 : ImportScan :=
      match module with
      | some m => if m = "" then st else { st with lib := some (firstSegment m) }
      | none => st
    match st1.lib with
    | none => none
    | some l =>
        some { st1 with
          imported_libs :=
            if l = "" then st1.imported_libs else insert l st1.imported_libs
          num_imports := st1.num_imports + 1 }
| _ => some st

/-- The whole import-scanning loop over the nodes of ast.walk (tree);
none models the uncaught UnboundLocalError. -/
def scanImports : ImportScan → List PyNode → Option ImportScan
| st, [] => some st
| st, n :: ns =>
    match scanNode st n with
    | none => none
    | some st1 => scanImports st1 ns

/-- Whether a character is one of the line boundaries recognized by
str.splitlines: LF, CR (CRLF counts once), VT, FF, FS, GS, RS, NEL, LINE
SEPARATOR, PARAGRAPH SEPARATOR. -/
def isLineBreakChar (c : Char) : Bool :=
  c = Char.ofNat 10 || c = Char.ofNat 13 || c = Char.ofNat 11 || c = Char.ofNat 12 ||
  c = Char.ofNat 28 || c = Char.ofNat 29 || c = Char.ofNat 30 || c = Char.ofNat 133 ||
  c = Char.ofNat 8232 || c = Char.ofNat 8233

/-- Accumulator version of str.splitlines on a character list: cur holds the
reversed characters of the line being read, and lastCR records that the
previous character was a carriage return, so that the line feed of a CRLF
pair does not open another line. -/
def splitlinesAux : (cur : List Char) → (lastCR : Bool) → List Char → List (List Char)
| cur, _, [] => if cur.isEmpty then [] else [cur.reverse]
| cur, lastCR, c :: cs =>
    if c = Char.ofNat 10 then
      if lastCR then splitlinesAux cur false cs
      else cur.reverse :: splitlinesAux [] false cs
    else if c = Char.ofNat 13 then cur.reverse :: splitlinesAux [] true cs
    else if isLineBreakChar c then cur.reverse :: splitlinesAux [] false cs
    else splitlinesAux (c :: cur) false cs

/-- source_code.splitlines (): the physical lines of the text, a trailing
line boundary producing no extra empty line. -/
def pythonSplitlines (s : String) : List String :=
  (splitlinesAux [] false s.data).map String.mk

/-- The features dictionary built at the end of
extract_features_and_code_from_file, with one field per key in insertion
order; io_calls stands for the key named I/O Calls. -/
structure FeatureRecord (α : Type) : Type where
  LOC : α
  No_of_Functions : α
  No_of_Classes : α
  No_of_Loops : α
  Loop_Nesting_Depth : α
  No_of_Conditional_Blocks : α
  Import_Score : α
  io_calls : α
deriving DecidableEq

/-- Whether a walk node is an ast.FunctionDef node. -/
def isFunctionDefNode : PyNode → Bool
| .stmt (.functionDef _ _) => true
| _ => false

/-- Whether a walk node is an ast.ClassDef node. -/
def isClassDefNode : PyNode → Bool
| .stmt (.classDef _ _) => true
| _ => false

/-- Whether a walk node is an ast.For or ast.While node. -/
def isLoopNode : PyNode → Bool
| .stmt (.forStmt _ _ _ _) => true
| .stmt (.whileStmt _ _ _) => true
| _ => false

/-- Whether a walk node is an ast.If node. -/
def isIfNode : PyNode → Bool
| .stmt (.ifStmt _ _ _) => true
| _ => false

/-- The feature computation of extract_features_and_code_from_file after a
successful parse: line count, tree-wide node counts over ast.walk, the scan
of imports (none when it raises UnboundLocalError), the weighted score
summed over the set imported_libs, and the FeatureExtractor results.
All counts are Python integers, embedded as Int. -/
def computeFeatures (source_code : String) (tree : PyStmtList) :
    Option (FeatureRecord Int) :=
  let num_lines := (pythonSplitlines source_code).length
  let num_functions := (walk tree).countP isFunctionDefNode
  let num_classes := (walk tree).countP isClassDefNode
  let num_loops := (walk tree).countP isLoopNode
  let num_conditional_blocks := (walk tree).countP isIfNode
  match scanImports ⟨none, ∅, 0⟩ (walk tree) with
  | none => none
  | some scan =>
      let weighted_import_score := scan.imported_libs.sum weightOf
      let extractor := visitSL 0 ⟨0, 0⟩ tree
      some
        { LOC := num_lines
          No_of_Functions := num_functions
          No_of_Classes := num_classes
          No_of_Loops := num_loops
          Loop_Nesting_Depth := extractor.max_loop_depth
          No_of_Conditional_Blocks := num_conditional_blocks
          Import_Score := weighted_import_score
          io_calls := extractor.file_io_calls }

/-- The outcome of reading and parsing one file, the two external effects at
the head of extract_features_and_code_from_file. -/
inductive ParsedInput : Type where
| unreadable : ParsedInput
| unparsable (source : String) : ParsedInput
| parsed (source : String) (tree : PyStmtList) : ParsedInput

/-- The possible outcomes of extract_features_and_code_from_file: the
(None, None) return on a read failure, the (None, source) return on a parse
failure, an uncaught exception escaping the function, or the
(features, source) return. -/
inductive ExtractOutcome : Type where
| readErrorReturn : ExtractOutcome
| parseErrorReturn (source : String) : ExtractOutcome
| crash : ExtractOutcome
| okReturn (features : FeatureRecord Int) (source : String) : ExtractOutcome
deriving DecidableEq

/-- extract_features_and_code_from_file, as a function of the read and parse
outcome. -/
def extract_features_and_code_from_file : ParsedInput → ExtractOutcome
| .unreadable => .readErrorReturn
| .unparsable source => .parseErrorReturn source
| .parsed source tree =>
    match computeFeatures source tree with
    | none => .crash
    | some features => .okReturn features source

/-- The FEATURES_ORDER constant of streamlit_app.py. -/
def FEATURES_ORDER : List String :=
  ["LOC", "No_of_Functions", "No_of_Classes", "No_of_Loops",
   "Loop_Nesting_Depth", "No_of_Conditional_Blocks", "Import_Score",
   "I/O Calls"]

/-- The single row of the DataFrame built by predict_for_features: the
values of the features dictionary taken in the fixed column order
FEATURES_ORDER. -/
def orderedValues (fd : FeatureRecord PyVal) : List PyVal :=
  [fd.LOC, fd.No_of_Functions, fd.No_of_Classes, fd.No_of_Loops,
   fd.Loop_Nesting_Depth, fd.No_of_Conditional_Blocks, fd.Import_Score,
   fd.io_calls]

/-- Coercion of every row value through pandas.to_numeric; none as soon as
any entry coerces to NaN, which is what input_df.isnull().values.any()
detects. -/
def coerceAll : List PyVal → Option (List Int)
| [] => some []
| v :: vs =>
    match to_numeric v, coerceAll vs with
    | some n, some ns => some (n :: ns)
    | _, _ => none

/-- The possible outcomes of predict_for_features: the early None return
with the non-numeric-features error message, the None return from the
except branch, or a prediction value. -/
inductive PredictOutcome : Type where
| nonNumericError : PredictOutcome
| predictionStepError : PredictOutcome
| okValue (value : Int) : PredictOutcome
deriving DecidableEq

/-- predict_for_features, with the opaque model.predict embedded as a
function from the single input row to the output vector; prediction[0] on
an empty output raises IndexError, which the except branch turns into the
error return. -/
def predict_for_features (model : List Int → List Int)
    (features_dict : FeatureRecord PyVal) : PredictOutcome :=
  match coerceAll (orderedValues features_dict) with
  | none => .nonNumericError
  | some vals =>
      match model vals with
      | [] => .predictionStepError
      | p :: _ => .okValue p

mutual
/-- Number of nodes satisfying p in the subtree rooted at an expression;
together with countS this gives the tree-wide node counts that
extract_features_and_code_from_file obtains with sum over ast.walk. -/
def countE (p : PyNode → Bool) : PyExpr → Nat
| .name id => cond (p (.expr (.name id))) 1 0
| .constant => cond (p (.expr .constant)) 1 0
| .attrib v a => cond (p (.expr (.attrib v a))) 1 0 + countE p v
| .call f args => cond (p (.expr (.call f args))) 1 0 + countE p f + countEL p args

def countEL (p : PyNode → Bool) : PyExprList → Nat
| .nil => 0
| .cons e es => countE p e + countEL p es

/-- Number of nodes satisfying p in the subtree rooted at a statement. -/
def countS (p : PyNode → Bool) : PyStmt → Nat
| .functionDef nm b => cond (p (.stmt (.functionDef nm b))) 1 0 + countSL p b
| .classDef nm b => cond (p (.stmt (.classDef nm b))) 1 0 + countSL p b
| .forStmt t i b o =>
    cond (p (.stmt (.forStmt t i b o))) 1 0 + countE p t + countE p i +
      countSL p b + countSL p o
| .whileStmt c b o =>
    cond (p (.stmt (.whileStmt c b o))) 1 0 + countE p c + countSL p b + countSL p o
| .ifStmt c b o =>
    cond (p (.stmt (.ifStmt c b o))) 1 0 + countE p c + countSL p b + countSL p o
| .importStmt ns => cond (p (.stmt (.importStmt ns))) 1 0
| .importFrom m ns => cond (p (.stmt (.importFrom m ns))) 1 0
| .exprStmt e => cond (p (.stmt (.exprStmt e))) 1 0 + countE p e
| .assign t v => cond (p (.stmt (.assign t v))) 1 0 + countE p t + countE p v
| .pass => cond (p (.stmt .pass)) 1 0

def countSL (p : PyNode → Bool) : PyStmtList → Nat
| .nil => 0
| .cons s ss => countS p s + countSL p ss
end

/-- Number of nodes satisfying p in the subtree rooted at a node. -/
def countNode (p : PyNode → Bool) : PyNode → Nat
| .stmt s => countS p s
| .expr e => countE p e

mutual
/-- Number of call nodes inside an expression whose callee resolves, by the
visit_Call rule, to a simple name belonging to file_io_funcs. -/
def ioCallsE : PyExpr → Nat
| .name _ => 0
| .constant => 0
| .attrib v _ => ioCallsE v
| .call f args => cond (isFileIONameHit f) 1 0 + ioCallsE f + ioCallsEL args

def ioCallsEL : PyExprList → Nat
| .nil => 0
| .cons e es => ioCallsE e + ioCallsEL es

/-- Number of such call nodes inside a statement. -/
def ioCallsS : PyStmt → Nat
| .functionDef _ b => ioCallsSL b
| .classDef _ b => ioCallsSL b
| .forStmt t i b o => ioCallsE t + ioCallsE i + ioCallsSL b + ioCallsSL o
| .whileStmt c b o => ioCallsE c + ioCallsSL b + ioCallsSL o
| .ifStmt c b o => ioCallsE c + ioCallsSL b + ioCallsSL o
| .importStmt _ => 0
| .importFrom _ _ => 0
| .exprStmt e => ioCallsE e
| .assign t v => ioCallsE t + ioCallsE v
| .pass => 0

def ioCallsSL : PyStmtList → Nat
| .nil => 0
| .cons s ss => ioCallsS s + ioCallsSL ss
end

/-- Specification-side set of top-level names contributed by the aliases of
one ast.Import node, following the spec wording: the first dotted segment of
each imported path, skipping names that resolve to empty. -/
def aliasTopNames : List String → Finset String
| [] => ∅
| nm :: rest =>
    (if firstSegment nm = "" then ∅ else {firstSegment nm}) ∪ aliasTopNames rest

/-- Specification-side set of top-level names contributed by one node,
following the spec wording: for a plain import, the first dotted segment of
each imported path; for a from-import, the first dotted segment of the
module being imported from; names that resolve to empty or absent are
skipped. -/
def nodeTopNames : PyNode → Finset String
| .stmt (.importStmt names) => aliasTopNames names
| .stmt (.importFrom (some m) _) =>
    if firstSegment m = "" then ∅ else {firstSegment m}
| _ => ∅

/-- Specification-side deduplicated set of distinct top-level imported
module names of a node list. -/
def specTopLevelNames : List PyNode → Finset String
| [] => ∅
| n :: ns => nodeTopNames n ∪ specTopLevelNames ns

/-- Invariant of the import scan: whenever the loop variable lib is bound to
a non-empty name, that name is already a member of imported_libs. -/
def libConsistent (st : ImportScan) : Prop :=
  ∀ l, st.lib = some l → l ≠ "" → l ∈ st.imported_libs

/-- Number of line boundaries of str.splitlines in a character list, a CRLF
pair counting once; the flag records that the previous character was a
carriage return, mirroring splitlinesAux. -/
def countTerminatorsAux : Bool → List Char → Nat
| _, [] => 0
| lastCR, c :: cs =>
    if c = Char.ofNat 10 then
      (if lastCR then 0 else 1) + countTerminatorsAux false cs
    else if c = Char.ofNat 13 then 1 + countTerminatorsAux true cs
    else if isLineBreakChar c then 1 + countTerminatorsAux false cs
    else countTerminatorsAux false cs

/-- Number of line terminators of a text, a CRLF pair counting once. -/
def countTerminators (l : List Char) : Nat := countTerminatorsAux false l

/-- Whether a text ends with a line terminator character. -/
def endsWithTerminator (s : String) : Bool :=
  match s.data.getLast? with
  | some c => isLineBreakChar c
  | none => false

/-! Concrete programs used as claim inputs. -/

/-- A single-quote character, used to spell source texts. -/
def sq : String := String.mk [Char.ofNat 39]

/-- The end-to-end source text of the spec: two nested for loops around a
call of open. -/
def c5src : String :=
  "for i in range(3):\n    for j in range(3):\n        open(" ++ sq ++ "f" ++ sq ++ ")\n"

/-- The syntax tree the Python parser produces for c5src. -/
def c5tree : PyStmtList :=
  .cons (.forStmt (.name "i") (.call (.name "range") (.cons .constant .nil))
    (.cons (.forStmt (.name "j") (.call (.name "range") (.cons .constant .nil))
      (.cons (.exprStmt (.call (.name "open") (.cons .constant .nil))) .nil) .nil) .nil)
    .nil) .nil

/-- The syntax tree of the one-line file from . import x: a single
ast.ImportFrom node with an absent module. -/
def c1tree : PyStmtList := .cons (.importFrom none ["x"]) .nil

/-- The syntax tree of the one-line file from . import y. -/
def c3tree : PyStmtList := .cons (.importFrom none ["y"]) .nil

/-- The syntax tree of a file importing lib.a and lib.b, two submodule paths
of one unknown top-level library. -/
def c7treeUnknown : PyStmtList :=
  .cons (.importStmt ["lib.a"]) (.cons (.importStmt ["lib.b"]) .nil)

/-- The syntax tree of a file importing pandas.core and pandas.errors, two
submodule paths of one library with table weight 6. -/
def c7treePandas : PyStmtList :=
  .cons (.importStmt ["pandas.core"]) (.cons (.importStmt ["pandas.errors"]) .nil)

/-- The syntax tree of a file importing the single unknown name customlib. -/
def c7treeSingle : PyStmtList := .cons (.importStmt ["customlib"]) .nil

/-- The syntax tree of the one-line file import google.cloud.storage. -/
def c10tree : PyStmtList := .cons (.importStmt ["google.cloud.storage"]) .nil

/-- The source text import google.cloud.storage. -/
def c10src : String := "import google.cloud.storage"

/-- The source text of c7treeUnknown. -/
def c7srcUnknown : String := "import lib.a\nimport lib.b"

/-- The source text of c7treePandas. -/
def c7srcPandas : String := "import pandas.core\nimport pandas.errors"

/-- The source text of c7treeSingle. -/
def c7srcSingle : String := "import customlib"

/-- The feature record extracted from the one-line file import customlib. -/
def c7rec : FeatureRecord Int := ⟨1, 0, 0, 0, 0, 0, 2, 0⟩

/-- The syntax tree of the one-line file pass. -/
def c4tree : PyStmtList := .cons .pass .nil

/-- The feature record extracted from the one-line file pass. -/
def c4rec : FeatureRecord Int := ⟨1, 0, 0, 0, 0, 0, 0, 0⟩

/-- A two-line source text with one line terminator and no trailing one. -/
def c9src : String := "x = 1\ny = 2"

/-- The syntax tree of c9src: two simple assignments. -/
def c9tree : PyStmtList :=
  .cons (.assign (.name "x") .constant) (.cons (.assign (.name "y") .constant) .nil)

/-- The feature record extracted from c9src. -/
def c9rec : FeatureRecord Int := ⟨2, 0, 0, 0, 0, 0, 0, 0⟩

/-- A features dictionary holding a string that cannot be coerced to a
number. -/
def c2rec : FeatureRecord PyVal :=
  ⟨.strVal "abc", .intVal 0, .intVal 0, .intVal 0, .intVal 0, .intVal 0,
   .intVal 0, .intVal 0⟩

/-- A features dictionary of eight plain integers. -/
def c8rec : FeatureRecord PyVal :=
  ⟨.intVal 1, .intVal 2, .intVal 3, .intVal 4, .intVal 5, .intVal 6,
   .intVal 7, .intVal 8⟩

/-! Theorems: basic facts about the walk enumeration. -/

theorem nodesWeight_append (a b : List PyNode) :
    nodesWeight (a ++ b) = nodesWeight a + nodesWeight b := by
  simp [nodesWeight]

theorem nodesWeight_stmts_le : (l : PyStmtList) →
    nodesWeight (l.toList.map PyNode.stmt) ≤ sizeSL l
| .nil => by simp [PyStmtList.toList, nodesWeight, sizeSL]
| .cons s ss => by
    have ih := nodesWeight_stmts_le ss
    simp only [PyStmtList.toList, List.map_cons, nodesWeight, List.sum_cons,
      sizeSL, nodeWeight] at *
    omega

theorem nodesWeight_exprs_le : (l : PyExprList) →
    nodesWeight (l.toList.map PyNode.expr) ≤ sizeEL l
| .nil => by simp [PyExprList.toList, nodesWeight, sizeEL]
| .cons e es => by
    have ih := nodesWeight_exprs_le es
    simp only [PyExprList.toList, List.map_cons, nodesWeight, List.sum_cons,
      sizeEL, nodeWeight] at *
    omega

theorem pyChildren_weight_lt : (n : PyNode) →
    nodesWeight (pyChildren n) < nodeWeight n
| .stmt (.functionDef nm b) => by
    have h := nodesWeight_stmts_le b
    simp only [pyChildren, nodeWeight, sizeS]
    omega
| .stmt (.classDef nm b) => by
    have h := nodesWeight_stmts_le b
    simp only [pyChildren, nodeWeight, sizeS]
    omega
| .stmt (.forStmt t i b o) => by
    have hb := nodesWeight_stmts_le b
    have ho := nodesWeight_stmts_le o
    simp only [pyChildren, nodeWeight, sizeS, nodesWeight, List.map_cons,
      List.sum_cons, List.map_append, List.sum_append] at *
    omega
| .stmt (.whileStmt c b o) => by
    have hb := nodesWeight_stmts_le b
    have ho := nodesWeight_stmts_le o
    simp only [pyChildren, nodeWeight, sizeS, nodesWeight, List.map_cons,
      List.sum_cons, List.map_append, List.sum_append] at *
    omega
| .stmt (.ifStmt c b o) => by
    have hb := nodesWeight_stmts_le b
    have ho := nodesWeight_stmts_le o
    simp only [pyChildren, nodeWeight, sizeS, nodesWeight, List.map_cons,
      List.sum_cons, List.map_append, List.sum_append] at *
    omega
| .stmt (.importStmt ns) => by
    simp [pyChildren, nodeWeight, sizeS, nodesWeight]
| .stmt (.importFrom m ns) => by
    simp [pyChildren, nodeWeight, sizeS, nodesWeight]
| .stmt (.exprStmt e) => by
    simp only [pyChildren, nodeWeight, sizeS, nodesWeight, List.map_cons,
      List.sum_cons, List.map_nil, List.sum_nil]
    omega
| .stmt (.assign t v) => by
    simp only [pyChildren, nodeWeight, sizeS, nodesWeight, List.map_cons,
      List.sum_cons, List.map_nil, List.sum_nil]
    omega
| .stmt .pass => by
    simp [pyChildren, nodeWeight, sizeS, nodesWeight]
| .expr (.name id) => by
    simp [pyChildren, nodeWeight, sizeE, nodesWeight]
| .expr .constant => by
    simp [pyChildren, nodeWeight, sizeE, nodesWeight]
| .expr (.attrib v a) => by
    simp only [pyChildren, nodeWeight, sizeE, nodesWeight, List.map_cons,
      List.sum_cons, List.map_nil, List.sum_nil]
    omega
| .expr (.call f args) => by
    have h := nodesWeight_exprs_le args
    simp only [pyChildren, nodeWeight, sizeE, nodesWeight, List.map_cons,
      List.sum_cons] at *
    omega

theorem nodeWeight_pos (n : PyNode) : 1 ≤ nodeWeight n := by
  have h := pyChildren_weight_lt n
  omega

theorem walkFromAux_congr : (f1 : Nat) → (f2 : Nat) → (l : List PyNode) →
    nodesWeight l ≤ f1 → nodesWeight l ≤ f2 →
    walkFromAux f1 l = walkFromAux f2 l
| _, _, [], _, _ => by simp [walkFromAux]
| f1 + 1, f2 + 1, n :: q, h1, h2 => by
    have hw := pyChildren_weight_lt n
    have hq : nodesWeight (q ++ pyChildren n) ≤ f1 ∧
        nodesWeight (q ++ pyChildren n) ≤ f2 := by
      simp only [nodesWeight, List.map_append, List.sum_append, List.map_cons,
        List.sum_cons] at h1 h2 hw ⊢
      omega
    have ih := walkFromAux_congr f1 f2 (q ++ pyChildren n) hq.1 hq.2
    simp [walkFromAux, ih]
| 0, _, n :: q, h1, _ => by
    have := nodeWeight_pos n
    simp only [nodesWeight, List.map_cons, List.sum_cons] at h1
    omega
| _ + 1, 0, n :: q, _, h2 => by
    have := nodeWeight_pos n
    simp only [nodesWeight, List.map_cons, List.sum_cons] at h2
    omega

theorem walkFrom_nil : walkFrom [] = [] := rfl

theorem walkFrom_cons (n : PyNode) (q : List PyNode) :
    walkFrom (n :: q) = n :: walkFrom (q ++ pyChildren n) := by
  have hp := nodeWeight_pos n
  have hw := pyChildren_weight_lt n
  have hcons : nodesWeight (n :: q) = nodeWeight n + nodesWeight q := by
    simp [nodesWeight]
  have happ : nodesWeight (q ++ pyChildren n) =
      nodesWeight q + nodesWeight (pyChildren n) := by
    simp [nodesWeight]
  obtain ⟨f, hf⟩ : ∃ f, nodesWeight (n :: q) = f + 1 :=
    ⟨nodesWeight (n :: q) - 1, by omega⟩
  unfold walkFrom
  rw [hf]
  simp only [walkFromAux]
  congr 1
  exact walkFromAux_congr f (nodesWeight (q ++ pyChildren n)) (q ++ pyChildren n)
    (by omega) (le_refl _)

theorem sum_countNode_stmts (p : PyNode → Bool) : (l : PyStmtList) →
    ((l.toList.map PyNode.stmt).map (countNode p)).sum = countSL p l
| .nil => by simp [PyStmtList.toList, countSL]
| .cons s ss => by
    have ih := sum_countNode_stmts p ss
    simp only [PyStmtList.toList, List.map_cons, List.sum_cons, countSL,
      countNode] at *
    omega

theorem sum_countNode_exprs (p : PyNode → Bool) : (l : PyExprList) →
    ((l.toList.map PyNode.expr).map (countNode p)).sum = countEL p l
| .nil => by simp [PyExprList.toList, countEL]
| .cons e es => by
    have ih := sum_countNode_exprs p es
    simp only [PyExprList.toList, List.map_cons, List.sum_cons, countEL,
      countNode] at *
    omega

theorem countNode_eq (p : PyNode → Bool) (n : PyNode) :
    countNode p n = cond (p n) 1 0 + ((pyChildren n).map (countNode p)).sum := by
  rcases n with s | e
  · rcases s with ⟨nm, b⟩ | ⟨nm, b⟩ | ⟨t, i, b, o⟩ | ⟨c, b, o⟩ | ⟨c, b, o⟩ | ns | ⟨m, ns⟩ | e | ⟨t, v⟩ | _ <;>
      simp only [pyChildren, countNode, countS, List.map_cons, List.sum_cons,
        List.map_append, List.sum_append, List.map_nil, List.sum_nil,
        sum_countNode_stmts, sum_countNode_exprs] <;>
      omega
  · rcases e with id | _ | ⟨v, a⟩ | ⟨f, args⟩ <;>
      simp only [pyChildren, countNode, countE, List.map_cons, List.sum_cons,
        List.map_nil, List.sum_nil, sum_countNode_exprs] <;>
      omega

theorem walkFrom_countP (p : PyNode → Bool) (l : List PyNode) :
    (walkFrom l).countP p = (l.map (countNode p)).sum := by
  generalize hW : nodesWeight l = W
  induction W using Nat.strong_induction_on generalizing l with
  | _ W ih =>
    cases l with
    | nil => simp [walkFrom_nil]
    | cons n q =>
      have hlt : nodesWeight (q ++ pyChildren n) < W := by
        have h := pyChildren_weight_lt n
        subst hW
        simp only [nodesWeight, List.map_append, List.sum_append, List.map_cons,
          List.sum_cons] at *
        omega
      have ih2 := ih _ hlt (q ++ pyChildren n) rfl
      rw [walkFrom_cons, List.countP_cons, ih2]
      simp only [List.map_append, List.sum_append, List.map_cons, List.sum_cons,
        countNode_eq p n]
      cases hpn : p n <;> simp [hpn] <;> omega

theorem walk_countP (p : PyNode → Bool) (t : PyStmtList) :
    (walk t).countP p = countSL p t := by
  unfold walk
  rw [walkFrom_countP, sum_countNode_stmts]

mutual
theorem visitE_max (d : Nat) (st : FeatureExtractor) : (e : PyExpr) →
    (visitE d st e).max_loop_depth = st.max_loop_depth
| .name _ => rfl
| .constant => rfl
| .attrib v a => by
    simp only [visitE]
    exact visitE_max d st v
| .call f args => by
    simp only [visitE]
    rw [visitEL_max, visitE_max]
    cases h : isFileIONameHit f <;> simp [h]

theorem visitEL_max (d : Nat) (st : FeatureExtractor) : (l : PyExprList) →
    (visitEL d st l).max_loop_depth = st.max_loop_depth
| .nil => rfl
| .cons e es => by
    simp only [visitEL]
    rw [visitEL_max, visitE_max]
end

mutual
theorem visitE_io (d : Nat) (st : FeatureExtractor) : (e : PyExpr) →
    (visitE d st e).file_io_calls = st.file_io_calls + ioCallsE e
| .name _ => by simp [visitE, ioCallsE]
| .constant => by simp [visitE, ioCallsE]
| .attrib v a => by
    simp only [visitE, ioCallsE]
    exact visitE_io d st v
| .call f args => by
    simp only [visitE, ioCallsE]
    rw [visitEL_io, visitE_io]
    cases h : isFileIONameHit f <;> simp [h] <;> omega

theorem visitEL_io (d : Nat) (st : FeatureExtractor) : (l : PyExprList) →
    (visitEL d st l).file_io_calls = st.file_io_calls + ioCallsEL l
| .nil => by simp [visitEL, ioCallsEL]
| .cons e es => by
    simp only [visitEL, ioCallsEL]
    rw [visitEL_io, visitE_io]
    omega
end

mutual
theorem visitS_io (d : Nat) (st : FeatureExtractor) : (s : PyStmt) →
    (visitS d st s).file_io_calls = st.file_io_calls + ioCallsS s
| .functionDef nm b => by
    simp only [visitS, ioCallsS]
    exact visitSL_io d st b
| .classDef nm b => by
    simp only [visitS, ioCallsS]
    exact visitSL_io d st b
| .forStmt t i b o => by
    simp only [visitS, ioCallsS]
    rw [visitSL_io, visitSL_io, visitE_io, visitE_io]
    dsimp only
    omega
| .whileStmt c b o => by
    simp only [visitS, ioCallsS]
    rw [visitSL_io, visitSL_io, visitE_io]
    dsimp only
    omega
| .ifStmt c b o => by
    simp only [visitS, ioCallsS]
    rw [visitSL_io, visitSL_io, visitE_io]
    omega
| .importStmt ns => by simp [visitS, ioCallsS]
| .importFrom m ns => by simp [visitS, ioCallsS]
| .exprStmt e => by
    simp only [visitS, ioCallsS]
    exact visitE_io d st e
| .assign t v => by
    simp only [visitS, ioCallsS]
    rw [visitE_io, visitE_io]
    omega
| .pass => by simp [visitS, ioCallsS]

theorem visitSL_io (d : Nat) (st : FeatureExtractor) : (l : PyStmtList) →
    (visitSL d st l).file_io_calls = st.file_io_calls + ioCallsSL l
| .nil => by simp [visitSL, ioCallsSL]
| .cons s ss => by
    simp only [visitSL, ioCallsSL]
    rw [visitSL_io, visitS_io]
    omega
end

mutual
theorem visitS_max_le (d : Nat) (st : FeatureExtractor) : (s : PyStmt) →
    (visitS d st s).max_loop_depth ≤
      max st.max_loop_depth (d + countS isLoopNode s)
| .functionDef nm b => by
    simp only [visitS, countS, isLoopNode, cond_false]
    have h := visitSL_max_le d st b
    omega
| .classDef nm b => by
    simp only [visitS, countS, isLoopNode, cond_false]
    have h := visitSL_max_le d st b
    omega
| .forStmt t i b o => by
    simp only [visitS, countS, isLoopNode, cond_true]
    have hA : (visitE (d + 1) (visitE (d + 1)
        { st with max_loop_depth := max st.max_loop_depth (d + 1) } t) i).max_loop_depth =
        max st.max_loop_depth (d + 1) := by
      rw [visitE_max, visitE_max]
    have h1 := visitSL_max_le (d + 1)
      (visitE (d + 1) (visitE (d + 1)
        { st with max_loop_depth := max st.max_loop_depth (d + 1) } t) i) b
    have h2 := visitSL_max_le (d + 1)
      (visitSL (d + 1) (visitE (d + 1) (visitE (d + 1)
        { st with max_loop_depth := max st.max_loop_depth (d + 1) } t) i) b) o
    rw [hA] at h1
    omega
| .whileStmt c b o => by
    simp only [visitS, countS, isLoopNode, cond_true]
    have hA : (visitE (d + 1)
        { st with max_loop_depth := max st.max_loop_depth (d + 1) } c).max_loop_depth =
        max st.max_loop_depth (d + 1) := by
      rw [visitE_max]
    have h1 := visitSL_max_le (d + 1)
      (visitE (d + 1) { st with max_loop_depth := max st.max_loop_depth (d + 1) } c) b
    have h2 := visitSL_max_le (d + 1)
      (visitSL (d + 1)
        (visitE (d + 1) { st with max_loop_depth := max st.max_loop_depth (d + 1) } c) b) o
    rw [hA] at h1
    omega
| .ifStmt c b o => by
    simp only [visitS, countS, isLoopNode, cond_false]
    have hA : (visitE d st c).max_loop_depth = st.max_loop_depth := visitE_max d st c
    have h1 := visitSL_max_le d (visitE d st c) b
    have h2 := visitSL_max_le d (visitSL d (visitE d st c) b) o
    rw [hA] at h1
    omega
| .importStmt ns => by
    simp only [visitS, countS, isLoopNode, cond_false]
    omega
| .importFrom m ns => by
    simp only [visitS, countS, isLoopNode, cond_false]
    omega
| .exprStmt e => by
    simp only [visitS, countS, isLoopNode, cond_false]
    have h := visitE_max d st e
    omega
| .assign t v => by
    simp only [visitS, countS, isLoopNode, cond_false]
    have h : (visitE d (visitE d st t) v).max_loop_depth = st.max_loop_depth := by
      rw [visitE_max, visitE_max]
    omega
| .pass => by
    simp only [visitS, countS, isLoopNode, cond_false]
    omega

theorem visitSL_max_le (d : Nat) (st : FeatureExtractor) : (l : PyStmtList) →
    (visitSL d st l).max_loop_depth ≤
      max st.max_loop_depth (d + countSL isLoopNode l)
| .nil => by
    simp only [visitSL, countSL]
    omega
| .cons s ss => by
    simp only [visitSL, countSL]
    have h1 := visitS_max_le d st s
    have h2 := visitSL_max_le d (visitS d st s) ss
    omega
end

/-- The FeatureExtractor run of computeFeatures starts from depth 0 and the
zero state, so its final max_loop_depth is bounded by the number of loop
nodes of the tree. -/
theorem extractor_max_le (t : PyStmtList) :
    (visitSL 0 ⟨0, 0⟩ t).max_loop_depth ≤ countSL isLoopNode t := by
  have h := visitSL_max_le 0 ⟨0, 0⟩ t
  simpa using h

/-- The FeatureExtractor run of computeFeatures counts exactly the call
nodes whose resolved simple name is in file_io_funcs. -/
theorem extractor_io (t : PyStmtList) :
    (visitSL 0 ⟨0, 0⟩ t).file_io_calls = ioCallsSL t := by
  have h := visitSL_io 0 ⟨0, 0⟩ t
  simpa using h

theorem scanAliases_libs (st : ImportScan) : (ns : List String) →
    (scanAliases st ns).imported_libs = st.imported_libs ∪ aliasTopNames ns
| [] => by simp [scanAliases, aliasTopNames]
| nm :: rest => by
    simp only [scanAliases, aliasTopNames]
    rw [scanAliases_libs]
    dsimp only
    by_cases h : firstSegment nm = ""
    · simp [h]
    · simp only [if_neg h]
      ext x
      simp [Finset.mem_union, Finset.mem_insert]
      tauto

theorem scanAliases_consistent (st : ImportScan) : (ns : List String) →
    libConsistent st → libConsistent (scanAliases st ns)
| [], hc => by simpa [scanAliases] using hc
| nm :: rest, hc => by
    simp only [scanAliases]
    apply scanAliases_consistent _ rest
    intro l hl hne
    dsimp only at hl ⊢
    cases hl
    rw [if_neg hne]
    exact Finset.mem_insert_self _ _

theorem scanNode_some (st st1 : ImportScan) (n : PyNode)
    (h : scanNode st n = some st1) (hc : libConsistent st) :
    st1.imported_libs = st.imported_libs ∪ nodeTopNames n ∧ libConsistent st1 := by
  rcases n with s | e
  · rcases s with ⟨nm, b⟩ | ⟨nm, b⟩ | ⟨t, i, b, o⟩ | ⟨c, b, o⟩ | ⟨c, b, o⟩ | ns | ⟨m, ns⟩ | e | ⟨t, v⟩ | _
    case importStmt =>
      simp only [scanNode, Option.some.injEq] at h
      subst h
      exact ⟨scanAliases_libs st ns, scanAliases_consistent st ns hc⟩
    case importFrom =>
      rcases m with _ | m
      · simp only [scanNode] at h
        cases hlib : st.lib with
        | none => rw [hlib] at h; simp at h
        | some l =>
          rw [hlib] at h
          simp only [Option.some.injEq] at h
          subst h
          simp only [nodeTopNames]
          by_cases hl : l = ""
          · constructor
            · simp [hl]
            · intro x hx hxe
              dsimp only at hx ⊢
              cases hx
              simp [hl] at hxe ⊢
          · have hmem := hc l hlib hl
            constructor
            · dsimp only
              rw [if_neg hl, Finset.insert_eq_self.mpr hmem]
              simp
            · intro x hx hxe
              dsimp only at hx ⊢
              cases hx
              rw [if_neg hl]
              exact Finset.mem_insert_self _ _
      · simp only [scanNode] at h
        by_cases hm : m = ""
        · rw [if_pos hm] at h
          cases hlib : st.lib with
          | none => rw [hlib] at h; simp at h
          | some l =>
            rw [hlib] at h
            simp only [Option.some.injEq] at h
            subst h
            have hfs : firstSegment m = "" := by
              subst hm
              rfl
            simp only [nodeTopNames, hfs, if_pos rfl]
            by_cases hl : l = ""
            · constructor
              · simp [hl]
              · intro x hx hxe
                dsimp only at hx ⊢
                cases hx
                simp [hl] at hxe ⊢
            · have hmem := hc l hlib hl
              constructor
              · dsimp only
                rw [if_neg hl, Finset.insert_eq_self.mpr hmem]
                simp
              · intro x hx hxe
                dsimp only at hx ⊢
                cases hx
                rw [if_neg hl]
                exact Finset.mem_insert_self _ _
        · rw [if_neg hm] at h
          simp only [Option.some.injEq] at h
          subst h
          simp only [nodeTopNames]
          by_cases hfs : firstSegment m = ""
          · constructor
            · simp [hfs]
            · intro x hx hxe
              dsimp only at hx ⊢
              cases hx
              exact absurd hfs hxe
          · constructor
            · dsimp only
              rw [if_neg hfs, if_neg hfs, Finset.insert_eq]
              ext x
              simp [Finset.mem_union, Finset.mem_insert]
              tauto
            · intro x hx hxe
              dsimp only at hx ⊢
              cases hx
              rw [if_neg hfs]
              exact Finset.mem_insert_self _ _
    all_goals
      simp only [scanNode, Option.some.injEq] at h
      subst h
      exact ⟨by simp [nodeTopNames], hc⟩
  · simp only [scanNode, Option.some.injEq] at h
    subst h
    exact ⟨by simp [nodeTopNames], hc⟩

theorem scanImports_libs : (ns : List PyNode) → (st st' : ImportScan) →
    scanImports st ns = some st' → libConsistent st →
    st'.imported_libs = st.imported_libs ∪ specTopLevelNames ns
| [], st, st', h, hc => by
    simp only [scanImports, Option.some.injEq] at h
    subst h
    simp [specTopLevelNames]
| n :: ns, st, st', h, hc => by
    simp only [scanImports] at h
    cases hn : scanNode st n with
    | none => rw [hn] at h; simp at h
    | some st1 =>
      rw [hn] at h
      obtain ⟨heq, hc1⟩ := scanNode_some st st1 n hn hc
      have hrest := scanImports_libs ns st1 st' h hc1
      rw [hrest, heq]
      simp only [specTopLevelNames]
      rw [Finset.union_assoc]

/-- The initial state of the import scan satisfies the scan invariant. -/
theorem libConsistent_init : libConsistent ⟨none, ∅, 0⟩ := by
  intro l hl
  simp at hl

/-- Characterization of a successful feature computation: the import scan
succeeded and every field of the record is the corresponding count. -/
theorem computeFeatures_some {s : String} {t : PyStmtList} {fd : FeatureRecord Int}
    (h : computeFeatures s t = some fd) :
    ∃ scan : ImportScan,
      scanImports ⟨none, ∅, 0⟩ (walk t) = some scan ∧
      fd = { LOC := ((pythonSplitlines s).length : Int)
             No_of_Functions := ((walk t).countP isFunctionDefNode : Int)
             No_of_Classes := ((walk t).countP isClassDefNode : Int)
             No_of_Loops := ((walk t).countP isLoopNode : Int)
             Loop_Nesting_Depth := ((visitSL 0 ⟨0, 0⟩ t).max_loop_depth : Int)
             No_of_Conditional_Blocks := ((walk t).countP isIfNode : Int)
             Import_Score := ((scan.imported_libs.sum weightOf : Nat) : Int)
             io_calls := ((visitSL 0 ⟨0, 0⟩ t).file_io_calls : Int) } := by
  unfold computeFeatures at h
  cases hscan : scanImports ⟨none, ∅, 0⟩ (walk t) with
  | none => rw [hscan] at h; simp at h
  | some scan =>
    rw [hscan] at h
    simp only [Option.some.injEq] at h
    exact ⟨scan, rfl, h.symm⟩

theorem splitlinesAux_lf_true (cur : List Char) (cs : List Char) :
    splitlinesAux cur true (Char.ofNat 10 :: cs) = splitlinesAux cur false cs := by
  simp [splitlinesAux]

theorem splitlinesAux_lf_false (cur : List Char) (cs : List Char) :
    splitlinesAux cur false (Char.ofNat 10 :: cs) =
      cur.reverse :: splitlinesAux [] false cs := by
  simp [splitlinesAux]

theorem splitlinesAux_cr (cur : List Char) (b : Bool) (cs : List Char) :
    splitlinesAux cur b (Char.ofNat 13 :: cs) =
      cur.reverse :: splitlinesAux [] true cs := by
  simp [splitlinesAux]

theorem splitlinesAux_br (cur : List Char) (b : Bool) (c : Char) (cs : List Char)
    (h10 : ¬ c = Char.ofNat 10) (h13 : ¬ c = Char.ofNat 13)
    (hbr : isLineBreakChar c = true) :
    splitlinesAux cur b (c :: cs) = cur.reverse :: splitlinesAux [] false cs := by
  simp [splitlinesAux, h10, h13, hbr]

theorem splitlinesAux_other (cur : List Char) (b : Bool) (c : Char) (cs : List Char)
    (hbr : isLineBreakChar c = false) :
    splitlinesAux cur b (c :: cs) = splitlinesAux (c :: cur) false cs := by
  have h10 : ¬ c = Char.ofNat 10 := by
    intro h
    subst h
    simp [isLineBreakChar] at hbr
  have h13 : ¬ c = Char.ofNat 13 := by
    intro h
    subst h
    simp [isLineBreakChar] at hbr
  simp [splitlinesAux, h10, h13, hbr]

theorem countTerminatorsAux_lf_true (cs : List Char) :
    countTerminatorsAux true (Char.ofNat 10 :: cs) = countTerminatorsAux false cs := by
  simp [countTerminatorsAux]

theorem countTerminatorsAux_lf_false (cs : List Char) :
    countTerminatorsAux false (Char.ofNat 10 :: cs) =
      1 + countTerminatorsAux false cs := by
  simp [countTerminatorsAux]

theorem countTerminatorsAux_cr (b : Bool) (cs : List Char) :
    countTerminatorsAux b (Char.ofNat 13 :: cs) = 1 + countTerminatorsAux true cs := by
  simp [countTerminatorsAux]

theorem countTerminatorsAux_br (b : Bool) (c : Char) (cs : List Char)
    (h10 : ¬ c = Char.ofNat 10) (h13 : ¬ c = Char.ofNat 13)
    (hbr : isLineBreakChar c = true) :
    countTerminatorsAux b (c :: cs) = 1 + countTerminatorsAux false cs := by
  simp [countTerminatorsAux, h10, h13, hbr]

theorem countTerminatorsAux_other (b : Bool) (c : Char) (cs : List Char)
    (hbr : isLineBreakChar c = false) :
    countTerminatorsAux b (c :: cs) = countTerminatorsAux false cs := by
  have h10 : ¬ c = Char.ofNat 10 := by
    intro h
    subst h
    simp [isLineBreakChar] at hbr
  have h13 : ¬ c = Char.ofNat 13 := by
    intro h
    subst h
    simp [isLineBreakChar] at hbr
  simp [countTerminatorsAux, h10, h13, hbr]

theorem splitlinesAux_length : (cs : List Char) → (cur : List Char) → (b : Bool) →
    (∀ c, cs.getLast? = some c → isLineBreakChar c = false) → cs ≠ [] →
    (splitlinesAux cur b cs).length = countTerminatorsAux b cs + 1
| [], _, _, _, hne => absurd rfl hne
| [c], cur, b, hlast, _ => by
    have hc : isLineBreakChar c = false := hlast c (by simp)
    rw [splitlinesAux_other cur b c [] hc, countTerminatorsAux_other b c [] hc]
    simp [splitlinesAux, countTerminatorsAux]
| c :: c2 :: cs2, cur, b, hlast, _ => by
    have hlast2 : ∀ x, (c2 :: cs2).getLast? = some x → isLineBreakChar x = false := by
      intro x hx
      exact hlast x (by rwa [List.getLast?_cons_cons])
    have ih : ∀ (cur2 : List Char) (b2 : Bool),
        (splitlinesAux cur2 b2 (c2 :: cs2)).length =
          countTerminatorsAux b2 (c2 :: cs2) + 1 :=
      fun cur2 b2 => splitlinesAux_length (c2 :: cs2) cur2 b2 hlast2 (by simp)
    by_cases h10 : c = Char.ofNat 10
    · subst h10
      cases b
      · rw [splitlinesAux_lf_false, countTerminatorsAux_lf_false,
          List.length_cons, ih]
        omega
      · rw [splitlinesAux_lf_true, countTerminatorsAux_lf_true, ih]
    · by_cases h13 : c = Char.ofNat 13
      · subst h13
        rw [splitlinesAux_cr, countTerminatorsAux_cr, List.length_cons, ih]
        omega
      · by_cases hbr : isLineBreakChar c
        · rw [splitlinesAux_br cur b c (c2 :: cs2) h10 h13 hbr,
            countTerminatorsAux_br b c (c2 :: cs2) h10 h13 hbr,
            List.length_cons, ih]
          omega
        · rw [splitlinesAux_other cur b c (c2 :: cs2) (by simpa using hbr),
            countTerminatorsAux_other b c (c2 :: cs2) (by simpa using hbr), ih]

/-- For a non-empty text not ending in a line terminator, the number of
lines returned by splitlines is the number of line terminators plus one. -/
theorem pythonSplitlines_length (s : String) (h1 : s.data ≠ [])
    (h2 : endsWithTerminator s = false) :
    (pythonSplitlines s).length = countTerminators s.data + 1 := by
  unfold pythonSplitlines countTerminators
  rw [List.length_map]
  apply splitlinesAux_length s.data [] false _ h1
  intro c hc
  unfold endsWithTerminator at h2
  rw [hc] at h2
  exact h2

theorem coerceAll_eq_none {l : List PyVal} :
    coerceAll l = none ↔ ∃ v ∈ l, to_numeric v = none := by
  induction l with
  | nil => simp [coerceAll]
  | cons v vs ih =>
    constructor
    · intro h
      simp only [coerceAll] at h
      cases hv : to_numeric v with
      | none => exact ⟨v, by simp, hv⟩
      | some n =>
        cases hc : coerceAll vs with
        | none =>
          obtain ⟨w, hw, hwn⟩ := ih.mp hc
          exact ⟨w, by simp [hw], hwn⟩
        | some ns =>
          rw [hv, hc] at h
          simp at h
    · rintro ⟨w, hw, hwn⟩
      simp only [coerceAll]
      rcases List.mem_cons.mp hw with rfl | hw2
      · cases hc : coerceAll vs <;> simp [hwn, hc]
      · have hvs : coerceAll vs = none := ih.mpr ⟨w, hw2, hwn⟩
        cases hv : to_numeric v <;> simp [hv, hvs]

theorem coerceAll_length : (l : List PyVal) → (vs : List Int) →
    coerceAll l = some vs → vs.length = l.length
| [], vs, h => by
    simp only [coerceAll, Option.some.injEq] at h
    subst h
    rfl
| v :: l, vs, h => by
    simp only [coerceAll] at h
    cases hv : to_numeric v with
    | none =>
      rw [hv] at h
      cases hc : coerceAll l <;> rw [hc] at h <;> simp at h
    | some n =>
      cases hc : coerceAll l with
      | none =>
        rw [hv, hc] at h
        simp at h
      | some ns =>
        rw [hv, hc] at h
        simp only [Option.some.injEq] at h
        subst h
        simp [coerceAll_length l ns hc]

theorem firstSegment_no_dot (s : String) : '.' ∈ (firstSegment s).data → False := by
  intro h
  simp only [firstSegment] at h
  have hp := List.mem_takeWhile_imp h
  simp at hp

theorem firstSegment_hyphen (s : String) :
    '-' ∈ (firstSegment s).data → '-' ∈ s.data := by
  intro h
  simp only [firstSegment] at h
  exact (List.takeWhile_prefix _).sublist.subset h

/-! Claim theorems. -/

/-- C1: the claim states that extraction of a file whose syntax tree holds a
from-import with an absent module completes without raising and scores that
statement as nothing; in particular on the file whose only statement is
from . import x it succeeds with ImportScore 0.  The code instead reaches
the statement if lib: with the local variable lib never bound (the guard
if node.module: ends at the semicolon before it) and raises
UnboundLocalError, so extraction crashes rather than returning. -/
theorem c1_relative_import_crashes :
    extract_features_and_code_from_file (.parsed "from . import x" c1tree) =
      ExtractOutcome.crash := by decide

/-- C3: the claim states that extraction returns (null, null) exactly when
reading fails, (null, source) when parsing fails, and two non-null values
whenever the source parses.  The first two cases hold, but on the parsed
one-statement file from . import y the function raises UnboundLocalError
instead of returning a pair, so the third case fails. -/
theorem c3_return_contract :
    extract_features_and_code_from_file .unreadable = ExtractOutcome.readErrorReturn ∧
    (∀ s : String, extract_features_and_code_from_file (.unparsable s) =
      ExtractOutcome.parseErrorReturn s) ∧
    extract_features_and_code_from_file (.parsed "from . import y" c3tree) =
      ExtractOutcome.crash :=
  ⟨rfl, fun _ => rfl, by decide⟩

/-- C2: whenever some entry of the features dictionary fails numeric
coercion, predict_for_features returns the distinct non-numeric error for
every model, hence without invoking the model; and whenever the result is
not that error, every entry of the row coerced to a number. -/
theorem c2_non_numeric_blocks_model (fd : FeatureRecord PyVal) :
    ((∃ v ∈ orderedValues fd, to_numeric v = none) →
      ∀ model : List Int → List Int,
        predict_for_features model fd = PredictOutcome.nonNumericError) ∧
    (∀ model : List Int → List Int,
      predict_for_features model fd ≠ PredictOutcome.nonNumericError →
        ∀ v ∈ orderedValues fd, ∃ n, to_numeric v = some n) := by
  constructor
  · intro hbad model
    unfold predict_for_features
    rw [coerceAll_eq_none.mpr hbad]
  · intro model h v hv
    unfold predict_for_features at h
    cases hc : coerceAll (orderedValues fd) with
    | none => rw [hc] at h; exact absurd rfl h
    | some vals =>
      cases hx : to_numeric v with
      | none =>
        have hnone := coerceAll_eq_none.mpr ⟨v, hv, hx⟩
        rw [hnone] at hc
        cases hc
      | some n => exact ⟨n, rfl⟩

/-- C2 witness: on a dictionary whose first entry is the string abc, the
adapter returns the non-numeric error. -/
theorem c2_witness :
    predict_for_features (fun v => [v.sum]) c2rec = PredictOutcome.nonNumericError :=
  (c2_non_numeric_blocks_model c2rec).1
    ⟨.strVal "abc", by decide, by decide⟩ (fun v => [v.sum])

/-- C4: every feature record produced by a successful extraction has eight
non-negative fields and a loop nesting depth bounded by the loop count, and
on a tree without for or while nodes both loop figures are zero. -/
theorem c4_invariants (s : String) (t : PyStmtList) (fd : FeatureRecord Int)
    (h : computeFeatures s t = some fd) :
    (0 ≤ fd.LOC ∧ 0 ≤ fd.No_of_Functions ∧ 0 ≤ fd.No_of_Classes ∧
      0 ≤ fd.No_of_Loops ∧ 0 ≤ fd.Loop_Nesting_Depth ∧
      0 ≤ fd.No_of_Conditional_Blocks ∧ 0 ≤ fd.Import_Score ∧ 0 ≤ fd.io_calls) ∧
    fd.Loop_Nesting_Depth ≤ fd.No_of_Loops ∧
    (countSL isLoopNode t = 0 → fd.No_of_Loops = 0 ∧ fd.Loop_Nesting_Depth = 0) := by
  obtain ⟨scan, hscan, rfl⟩ := computeFeatures_some h
  have hbound : (visitSL 0 ⟨0, 0⟩ t).max_loop_depth ≤ countSL isLoopNode t :=
    extractor_max_le t
  have hcount : (walk t).countP isLoopNode = countSL isLoopNode t :=
    walk_countP isLoopNode t
  refine ⟨⟨?_, ?_, ?_, ?_, ?_, ?_, ?_, ?_⟩, ?_, ?_⟩
  · exact Int.natCast_nonneg _
  · exact Int.natCast_nonneg _
  · exact Int.natCast_nonneg _
  · exact Int.natCast_nonneg _
  · exact Int.natCast_nonneg _
  · exact Int.natCast_nonneg _
  · exact Int.natCast_nonneg _
  · exact Int.natCast_nonneg _
  · dsimp only
    rw [hcount]
    exact_mod_cast hbound
  · intro hzero
    dsimp only
    rw [hcount, hzero]
    constructor
    · rfl
    · have : (visitSL 0 ⟨0, 0⟩ t).max_loop_depth = 0 := by omega
      rw [this]
      rfl

/-- C4 witness: the invariants instantiated on the loop-free one-line file
pass. -/
theorem c4_witness :
    ((0 ≤ c4rec.LOC ∧ 0 ≤ c4rec.No_of_Functions ∧ 0 ≤ c4rec.No_of_Classes ∧
      0 ≤ c4rec.No_of_Loops ∧ 0 ≤ c4rec.Loop_Nesting_Depth ∧
      0 ≤ c4rec.No_of_Conditional_Blocks ∧ 0 ≤ c4rec.Import_Score ∧
      0 ≤ c4rec.io_calls) ∧
    c4rec.Loop_Nesting_Depth ≤ c4rec.No_of_Loops ∧
    (countSL isLoopNode c4tree = 0 →
      c4rec.No_of_Loops = 0 ∧ c4rec.Loop_Nesting_Depth = 0)) :=
  c4_invariants "pass" c4tree c4rec (by decide)

/-- C5: on the spec end-to-end example of two nested for loops around a call
of open, extraction yields exactly LOC 3, two loops with nesting depth 2,
one file input output call, and every other figure zero. -/
theorem c5_end_to_end :
    computeFeatures c5src c5tree =
      some { LOC := 3, No_of_Functions := 0, No_of_Classes := 0, No_of_Loops := 2,
             Loop_Nesting_Depth := 2, No_of_Conditional_Blocks := 0,
             Import_Score := 0, io_calls := 1 } := by decide

/-- C6: the visitor adds one to file_io_calls per call node exactly when the
simple name of the callee, the bare identifier or the accessed member with
the receiver ignored, belongs to the fixed file input output name set; in
particular obj.read() and read() each count and reader.readline() does
not. -/
theorem c6_io_call_counting :
    (∀ (d : Nat) (st : FeatureExtractor) (e : PyExpr),
        (visitE d st e).file_io_calls = st.file_io_calls + ioCallsE e) ∧
    (∀ (d : Nat) (st : FeatureExtractor) (t : PyStmtList),
        (visitSL d st t).file_io_calls = st.file_io_calls + ioCallsSL t) ∧
    (∀ (f : PyExpr) (args : PyExprList), ioCallsE (.call f args) =
        cond (isFileIONameHit f) 1 0 + ioCallsE f + ioCallsEL args) ∧
    (∀ nm : String, isFileIONameHit (.name nm) = file_io_funcs.contains nm) ∧
    (∀ (recv : PyExpr) (a : String),
        isFileIONameHit (.attrib recv a) = file_io_funcs.contains a) ∧
    (visitE 0 ⟨0, 0⟩ (.call (.attrib (.name "obj") "read") .nil)).file_io_calls = 1 ∧
    (visitE 0 ⟨0, 0⟩ (.call (.name "read") .nil)).file_io_calls = 1 ∧
    (visitE 0 ⟨0, 0⟩ (.call (.attrib (.name "reader") "readline") .nil)).file_io_calls = 0 :=
  ⟨visitE_io, visitSL_io, fun _ _ => rfl, fun _ => rfl, fun _ _ => rfl,
   by decide, by decide, by decide⟩

/-- C7: the import score of every successful extraction is the sum of the
table weights, default 2, over the deduplicated set of first dotted
segments of the resolvable imports; two submodule imports of one library
count its weight once, and a single unknown name contributes 2. -/
theorem c7_import_score :
    (∀ (s : String) (t : PyStmtList) (fd : FeatureRecord Int),
      computeFeatures s t = some fd →
        fd.Import_Score = ((specTopLevelNames (walk t)).sum weightOf : Nat)) ∧
    (computeFeatures c7srcUnknown c7treeUnknown).map
      (fun fd => fd.Import_Score) = some 2 ∧
    (computeFeatures c7srcPandas c7treePandas).map
      (fun fd => fd.Import_Score) = some 6 ∧
    (computeFeatures c7srcSingle c7treeSingle).map
      (fun fd => fd.Import_Score) = some 2 := by
  refine ⟨?_, by decide, by decide, by decide⟩
  intro s t fd h
  obtain ⟨scan, hscan, rfl⟩ := computeFeatures_some h
  dsimp only
  have hlibs : scan.imported_libs = specTopLevelNames (walk t) := by
    have := scanImports_libs (walk t) ⟨none, ∅, 0⟩ scan hscan libConsistent_init
    simpa using this
  rw [hlibs]

/-- C7 witness: the score characterization instantiated on the one-line
file import customlib. -/
theorem c7_witness :
    c7rec.Import_Score = ((specTopLevelNames (walk c7treeSingle)).sum weightOf : Nat) :=
  c7_import_score.1 c7srcSingle c7treeSingle c7rec (by decide)

/-- C8: on a features dictionary that fully coerces, the adapter hands the
model the single row of the eight values in the fixed FEATURES_ORDER and
returns the first output value. -/
theorem c8_ordered_vector (fd : FeatureRecord PyVal) (vals : List Int)
    (model : List Int → List Int) (p : Int) (rest : List Int)
    (hc : coerceAll (orderedValues fd) = some vals)
    (hm : model vals = p :: rest) :
    predict_for_features model fd = PredictOutcome.okValue p ∧
      vals.length = 8 ∧ FEATURES_ORDER.length = 8 := by
  refine ⟨?_, ?_, by decide⟩
  · unfold predict_for_features
    rw [hc]
    dsimp only
    rw [hm]
  · have hl := coerceAll_length _ _ hc
    simpa [orderedValues] using hl

/-- C8 witness: the eight integers one to eight are passed in order to a
summing model and the prediction is its first output 36. -/
theorem c8_witness :
    predict_for_features (fun v => [v.sum]) c8rec = PredictOutcome.okValue 36 ∧
      ([1, 2, 3, 4, 5, 6, 7, 8] : List Int).length = 8 ∧
      FEATURES_ORDER.length = 8 :=
  c8_ordered_vector c8rec [1, 2, 3, 4, 5, 6, 7, 8] (fun v => [v.sum]) 36 []
    (by decide) (by decide)

/-- C9: for every successfully extracted non-empty source with no trailing
line terminator, LOC is the number of line terminators plus one. -/
theorem c9_loc_terminators (s : String) (t : PyStmtList) (fd : FeatureRecord Int)
    (h : computeFeatures s t = some fd) (h1 : s.data ≠ [])
    (h2 : endsWithTerminator s = false) :
    fd.LOC = (countTerminators s.data + 1 : Nat) := by
  obtain ⟨scan, hscan, rfl⟩ := computeFeatures_some h
  dsimp only
  rw [pythonSplitlines_length s h1 h2]

/-- C9 witness: the LOC law instantiated on the two-line source x = 1
newline y = 2. -/
theorem c9_witness : c9rec.LOC = (countTerminators c9src.data + 1 : Nat) :=
  c9_loc_terminators c9src c9tree c9rec (by decide) (by decide) (by decide)

/-- C10: the weight table key google.cloud carries 6 but no key google
exists, and because lookup keys are first dotted segments, which never
contain a dot and contain a hyphen only if the import name does, the dotted
and hyphenated table entries are unreachable: importing
google.cloud.storage scores the default 2. -/
theorem c10_dotted_keys_unreachable :
    List.lookup "google.cloud" library_weights = some 6 ∧
    List.lookup "google" library_weights = none ∧
    weightOf "google" = 2 ∧
    (∀ s : String, '.' ∈ (firstSegment s).data → False) ∧
    (∀ s : String, '-' ∈ (firstSegment s).data → '-' ∈ s.data) ∧
    computeFeatures c10src c10tree =
      some { LOC := 1, No_of_Functions := 0, No_of_Classes := 0, No_of_Loops := 0,
             Loop_Nesting_Depth := 0, No_of_Conditional_Blocks := 0,
             Import_Score := 2, io_calls := 0 } :=
  ⟨by decide, by decide, by decide, firstSegment_no_dot, firstSegment_hyphen,
   by decide⟩

/-- C10 witness: the hyphen law instantiated on the name scikit-learn. -/
theorem c10_witness : '-' ∈ ("scikit-learn" : String).data :=
  c10_dotted_keys_unreachable.2.2.2.2.1 "scikit-learn" (by decide)

end SCR
